import Mathlib

/-!
Verification development for the BOT-AGENDADOR Telegram scheduling bot
(`src/main.py`).

The program is shallowly embedded:

* Firestore's `schedules` collection becomes an association list
  `Store := List (String × Post)`; the document payload is literally the
  conversation draft dictionary (`context.user_data`) plus the fields
  `save_schedule` adds, so a single structure `Post` models both drafts and
  persisted records.  A dictionary key that is missing, and a key stored with
  value `None`, are both modelled as `none` (every read in the program goes
  through `.get(...)` or raises on a missing key, which we model explicitly).
* Timezone-localized datetimes are modelled as integers (`Time := Int`): the
  program only ever compares them and stores them verbatim.
* The external transport (Telegram) is modelled by two booleans per fire:
  `sendOk` (the `send_photo`/`send_video`/`send_message` call succeeded) and
  `pinOk` (the `pin_chat_message` call succeeded).  Any raised exception in
  the `try:` block of `send_post` lands in its `except:` clause, which only
  logs; exceptions raised before the `try:` propagate out of the handler.
  Either way the store is left unchanged, which is what the model returns.
-/

namespace BotAgendador

/-- Timezone-anchored timestamps (`SAO_PAULO_TZ`-localized datetimes) are
modelled as integers; the program only compares and stores them. -/
abbrev Time := Int

/-- One inline URL button, as built by the conversation: `get_button_text`
appends `{'text': ...}` with no `'url'` key, and `get_button_url` fills the
`'url'` key afterwards, so the url is optional until then. -/
structure Button where
  text : String
  url : Option String := none
  deriving DecidableEq

/-- A schedule document of the `schedules` collection.  It is the
conversation draft dict (`context.user_data`) plus the `user_id` field that
`save_schedule` adds (the `created_at` server-timestamp sentinel carries no
operator data and is not modelled).  `type` is `"agendada"` (one-shot) or
`"recorrente"` (recurring); `repetitions = some 0` is the unbounded
sentinel. -/
structure Post where
  type : Option String := none
  chat_id : Option String := none
  media_file_id : Option String := none
  media_type : Option String := none
  text : Option String := none
  buttons : List Button := []
  pin_post : Option Bool := none
  scheduled_for : Option Time := none
  interval : Option String := none
  repetitions : Option Int := none
  start_date : Option Time := none
  user_id : Option Int := none
  deriving DecidableEq

/-- The `schedules` Firestore collection: document id ↦ document. -/
abbrev Store := List (String × Post)

/-- `db.collection('schedules').document(sid).get()` — first entry with the
given id (Firestore ids are unique; we only need the first match). -/
def getDoc : Store → String → Option Post
  | [], _ => none
  | (k, p) :: rest, sid => if k = sid then some p else getDoc rest sid

/-- `doc_ref.delete()` — removes every entry carrying the id. -/
def deleteDoc (s : Store) (sid : String) : Store :=
  s.filter (fun d => !(d.1 == sid))

/-- `doc_ref.update({"repetitions": firestore.Increment(-1)})`, evaluated in
the single-threaded model at the current stored value: the matching
document's `repetitions` field becomes `some v`. -/
def setRepetitions : Store → String → Int → Store
  | [], _, _ => []
  | (k, p) :: rest, sid, v =>
    if k = sid then (k, { p with repetitions := some v }) :: setRepetitions rest sid v
    else (k, p) :: setRepetitions rest sid v

theorem getDoc_deleteDoc (s : Store) (sid : String) :
    getDoc (deleteDoc s sid) sid = none := by
  induction s with
  | nil => rfl
  | cons hd tl ih =>
    by_cases h : hd.1 = sid
    · simpa [deleteDoc, h] using ih
    · simpa [deleteDoc, getDoc, h] using ih

theorem getDoc_setRepetitions {s : Store} {sid : String} {p : Post} (v : Int)
    (h : getDoc s sid = some p) :
    getDoc (setRepetitions s sid v) sid = some { p with repetitions := some v } := by
  induction s with
  | nil => simp [getDoc] at h
  | cons hd tl ih =>
    obtain ⟨k, q⟩ := hd
    simp only [getDoc] at h
    by_cases hk : k = sid
    · rw [if_pos hk] at h
      simp only [setRepetitions, if_pos hk, getDoc]
      injection h with h
      rw [h]
    · rw [if_neg hk] at h
      simp only [setRepetitions, if_neg hk, getDoc]
      exact ih h

theorem getDoc_append_of_fresh {s : Store} {sid : String}
    (h : getDoc s sid = none) (l : Store) :
    getDoc (s ++ l) sid = getDoc l sid := by
  induction s with
  | nil => rfl
  | cons hd tl ih =>
    by_cases hk : hd.1 = sid
    · simp [getDoc, hk] at h
    · simp [getDoc, hk] at h ⊢
      exact ih h

/-! ## Dispatcher (`send_post`, src/main.py lines 51–91)

The Python handler, in order:
1. loads the document; missing → log and return (no store change);
2. `chat_id = post["chat_id"]` — a missing key raises *before* the `try:`
   (the exception propagates to the job queue; no store change);
3. builds the button markup: `b['url']` on a button lacking the url key
   raises, also before the `try:`;
4. inside `try:`: the transport send (`sendOk`), then — if
   `post.get("pin_post")` is truthy — the pin call (`pinOk`), then the
   record mutation; any failure inside the `try:` skips everything after it
   and is only logged.
-/

/-- The post-send record mutation of `send_post` (lines 84–88):
one-shot → delete; otherwise, with a `repetitions` key present: `1` →
delete, any non-zero value → atomic decrement, `0` → untouched.  A missing
`type` key would raise inside the `try:` (caught, no mutation). -/
def applySendMutation (store : Store) (schedule_id : String) (post : Post) : Store :=
  match post.type with
  | none => store
  | some ty =>
    if ty = "agendada" then deleteDoc store schedule_id
    else match post.repetitions with
      | none => store
      | some n =>
        if n = 1 then deleteDoc store schedule_id
        else if n ≠ 0 then setRepetitions store schedule_id (n - 1)
        else store

/-- `send_post` as a store transformer, given the fire's transport outcome
(`sendOk`, `pinOk`).  Every aborted path leaves the store unchanged. -/
def send_post (store : Store) (schedule_id : String) (sendOk pinOk : Bool) : Store :=
  match getDoc store schedule_id with
  | none => store
  | some post =>
    match post.chat_id with
    | none => store
    | some _ =>
      if post.buttons.any (fun b => b.url.isNone) then store
      else if !sendOk then store
      else if post.pin_post.getD false && !pinOk then store
      else applySendMutation store schedule_id post

theorem send_post_success {store : Store} {schedule_id : String} {post : Post}
    (hget : getDoc store schedule_id = some post)
    (hchat : post.chat_id.isSome)
    (hbtn : post.buttons.any (fun b => b.url.isNone) = false) :
    send_post store schedule_id true true = applySendMutation store schedule_id post := by
  obtain ⟨c, hc⟩ := Option.isSome_iff_exists.mp hchat
  simp [send_post, hget, hc, hbtn]

theorem applySendMutation_recurring (store : Store) (schedule_id : String)
    {post : Post} {n : Int}
    (hty : post.type = some "recorrente") (hrep : post.repetitions = some n) :
    applySendMutation store schedule_id post =
      if n = 1 then deleteDoc store schedule_id
      else if n ≠ 0 then setRepetitions store schedule_id (n - 1) else store := by
  simp [applySendMutation, hty, hrep]

/-- C1: for a RECURRING record, one fully successful fire decrements
`repetitions` by exactly 1 when it is `> 1` (the record still exists),
deletes the record when it is `= 1`, and leaves the store untouched when it
is `= 0`. -/
theorem C1_recurring_fire_mutation (store : Store) (schedule_id : String)
    (post : Post) (n : Int)
    (hget : getDoc store schedule_id = some post)
    (hty : post.type = some "recorrente")
    (hrep : post.repetitions = some n)
    (hchat : post.chat_id.isSome)
    (hbtn : post.buttons.any (fun b => b.url.isNone) = false) :
    (1 < n → getDoc (send_post store schedule_id true true) schedule_id
        = some { post with repetitions := some (n - 1) }) ∧
    (n = 1 → getDoc (send_post store schedule_id true true) schedule_id = none) ∧
    (n = 0 → send_post store schedule_id true true = store) := by
  rw [send_post_success hget hchat hbtn,
    applySendMutation_recurring store schedule_id hty hrep]
  refine ⟨fun h1 => ?_, fun h1 => ?_, fun h1 => ?_⟩
  · rw [if_neg (by omega : ¬ n = 1), if_pos (by omega : n ≠ 0)]
    exact getDoc_setRepetitions (n - 1) hget
  · rw [if_pos h1]
    exact getDoc_deleteDoc store schedule_id
  · rw [if_neg (by omega : ¬ n = 1), if_neg (by omega : ¬ n ≠ 0)]

/-- Concrete recurring record with 2 repetitions remaining, for witnesses. -/
def recPost2 : Post :=
  { type := some "recorrente", chat_id := some "@canal", text := some "oi"
    pin_post := some false, interval := some "30m", repetitions := some 2
    start_date := some 50, user_id := some 1 }

def recStore : Store := [("r1", recPost2)]

theorem C1_recurring_fire_mutation_witness :
    ((1 : Int) < 2 → getDoc (send_post recStore "r1" true true) "r1"
        = some { recPost2 with repetitions := some (2 - 1) }) ∧
    ((2 : Int) = 1 → getDoc (send_post recStore "r1" true true) "r1" = none) ∧
    ((2 : Int) = 0 → send_post recStore "r1" true true = recStore) :=
  C1_recurring_fire_mutation recStore "r1" recPost2 2 rfl rfl rfl (by decide) (by decide)

/-- C3: if the transport send fails, `send_post` performs no store mutation
whatsoever — the exception is caught before any delete or decrement, so the
store is returned unchanged, for every record and every pin outcome. -/
theorem C3_send_failure_no_mutation (store : Store) (schedule_id : String) (pinOk : Bool) :
    send_post store schedule_id false pinOk = store := by
  unfold send_post
  repeat' split <;> try rfl

theorem applySendMutation_oneshot (store : Store) (schedule_id : String) {post : Post}
    (hty : post.type = some "agendada") :
    applySendMutation store schedule_id post = deleteDoc store schedule_id := by
  simp [applySendMutation, hty]

/-- C2 (amended): when the transport send succeeds and the requested pin also
succeeds, the post-send mutation is applied — a ONE_SHOT record is deleted;
but a failure of the pin request aborts the mutation exactly as a send
failure does (the exception lands in the same `except:` clause, which only
logs), leaving the store unchanged. -/
theorem C2_pin_failure_blocks_mutation (store : Store) (schedule_id : String)
    (post : Post)
    (hget : getDoc store schedule_id = some post)
    (hty : post.type = some "agendada")
    (hchat : post.chat_id.isSome)
    (hbtn : post.buttons.any (fun b => b.url.isNone) = false)
    (hpin : post.pin_post = some true) :
    getDoc (send_post store schedule_id true true) schedule_id = none ∧
    send_post store schedule_id true false = store := by
  obtain ⟨c, hc⟩ := Option.isSome_iff_exists.mp hchat
  constructor
  · rw [send_post_success hget hchat hbtn, applySendMutation_oneshot store schedule_id hty]
    exact getDoc_deleteDoc store schedule_id
  · simp [send_post, hget, hc, hbtn, hpin]

/-- Concrete ONE_SHOT record with the pin flag set, for C2. -/
def pinnedOneShot : Post :=
  { type := some "agendada", chat_id := some "@canal", text := some "oi"
    pin_post := some true, scheduled_for := some 100, user_id := some 1 }

def pinnedStore : Store := [("s1", pinnedOneShot)]

/-- C2 (counterexample): with a ONE_SHOT record whose pin flag is set, a fire
whose transport send succeeds but whose pin request fails leaves the record
in the store — the delete is not applied, refuting the claim that a pin
failure never prevents the post-send mutation. -/
theorem C2_counterexample :
    send_post pinnedStore "s1" true false = pinnedStore ∧
    getDoc (send_post pinnedStore "s1" true false) "s1" = some pinnedOneShot := by
  constructor <;> decide

theorem C2_pin_failure_blocks_mutation_witness :
    getDoc (send_post pinnedStore "s1" true true) "s1" = none ∧
    send_post pinnedStore "s1" true false = pinnedStore :=
  C2_pin_failure_blocks_mutation pinnedStore "s1" pinnedOneShot (by decide) (by decide)
    (by decide) (by decide) (by decide)

/-! ## Reconciler (`reload_jobs_from_db`, src/main.py lines 93–121)

Runs once at process start (`application.post_init`).  It streams every
document of `schedules` and, per document:

* `type == 'agendada'`: with a `scheduled_for` strictly in the future,
  re-arms a one-shot timer (`run_once`) and counts it reloaded; with a
  `scheduled_for` that is not in the future, deletes the document and counts
  it deleted; with no `scheduled_for`, does nothing;
* `type == 'recorrente'`: with a `start_date` present and
  `post.get('repetitions', 1) > 0 or post.get('repetitions') == 0`, parses
  the interval string and re-arms a repeating timer; a missing or unparsable
  `interval`, like a missing `type`, raises and aborts the whole loop;
* any other `type`: does nothing.

The model folds over a snapshot of the collection (Firestore `stream()`)
while deletions are applied to the evolving store; an uncaught exception
freezes the accumulated state (deletions already performed persist, later
documents are never processed). -/

def digitsToNat (ds : List Char) : Nat :=
  ds.foldl (fun acc c => 10 * acc + (c.toNat - Char.toNat '0')) 0

/-- Python `int(str)`: surrounding whitespace stripped, an optional sign,
then at least one digit; `none` models the ValueError. -/
def pyInt? (s : String) : Option Int :=
  let l := ((s.data.dropWhile Char.isWhitespace).reverse.dropWhile Char.isWhitespace).reverse
  match l with
  | '-' :: ds =>
    if !ds.isEmpty && ds.all Char.isDigit then some (-(digitsToNat ds : Int)) else none
  | '+' :: ds =>
    if !ds.isEmpty && ds.all Char.isDigit then some (digitsToNat ds : Int) else none
  | ds =>
    if !ds.isEmpty && ds.all Char.isDigit then some (digitsToNat ds : Int) else none

/-- `unit = interval_str[-1]; value = int(interval_str[:-1])` followed by
`{'minutes': value}` if the unit is `'m'`, `{'hours': value}` if `'h'`, and
`{'days': value}` for anything else, normalized to minutes.  `none` models
the IndexError on an empty string or the ValueError from `int`, both of
which crash the caller. -/
def parseIntervalMinutes (s : String) : Option Int :=
  match s.data.reverse with
  | [] => none
  | unit :: revStem =>
    (pyInt? ⟨revStem.reverse⟩).map (fun v =>
      if unit = 'm' then v else if unit = 'h' then 60 * v else 1440 * v)

/-- An armed in-memory timer of the job queue (`run_once` / `run_repeating`). -/
inductive ArmedJob
  | once (schedule_id : String) (run_date : Time)
  | repeating (schedule_id : String) (intervalMinutes : Int) (first : Time)
  deriving DecidableEq

/-- State of one Reconciler run: the evolving store, the armed timers in
arming order, the two log counters, and whether an uncaught exception has
aborted the loop. -/
structure ReconcileResult where
  store : Store
  armed : List ArmedJob
  jobs_reloaded : Nat
  jobs_deleted : Nat
  crashed : Bool
  deriving DecidableEq

/-- What one loop iteration of `reload_jobs_from_db` does with one streamed
document; depends only on the document body and the current time. -/
inductive RAction
  | armOnce (run_date : Time)
  | del
  | armRep (intervalMinutes : Int) (first : Time)
  | skip
  | crash
  deriving DecidableEq

/-- Classification of one iteration of the `reload_jobs_from_db` loop
(lines 99–119), transcribing its branch structure: a missing `type` key
raises (`post['type']`); `'agendada'` arms/deletes on `scheduled_for`
versus now; `'recorrente'` arms when a `start_date` exists and
`post.get('repetitions', 1) > 0 or post.get('repetitions') == 0`, raising
on a missing or unparsable `interval`; other types fall through. -/
def entryAction (t : Time) (post : Post) : RAction :=
  match post.type with
  | none => .crash
  | some ty =>
    if ty = "agendada" then
      match post.scheduled_for with
      | none => .skip
      | some run_date => if run_date > t then .armOnce run_date else .del
    else if ty = "recorrente" then
      match post.start_date with
      | none => .skip
      | some start_date =>
        if post.repetitions.getD 1 > 0 ∨ post.repetitions = some 0 then
          match post.interval with
          | none => .crash
          | some istr =>
            match parseIntervalMinutes istr with
            | none => .crash
            | some mins => .armRep mins start_date
        else .skip
    else .skip

/-- Effect of one classified iteration on the run state. -/
def applyRAction (acc : ReconcileResult) (sid : String) : RAction → ReconcileResult
  | .armOnce rd =>
    { acc with armed := acc.armed ++ [.once sid rd], jobs_reloaded := acc.jobs_reloaded + 1 }
  | .del =>
    { acc with store := deleteDoc acc.store sid, jobs_deleted := acc.jobs_deleted + 1 }
  | .armRep m sd =>
    { acc with armed := acc.armed ++ [.repeating sid m sd],
               jobs_reloaded := acc.jobs_reloaded + 1 }
  | .skip => acc
  | .crash => { acc with crashed := true }

/-- One iteration of the Reconciler loop; after a crash nothing further
happens (the exception has left the loop). -/
def reconcileStep (t : Time) (acc : ReconcileResult) (e : String × Post) : ReconcileResult :=
  if acc.crashed then acc else applyRAction acc e.1 (entryAction t e.2)

/-- `reload_jobs_from_db`: folds the loop over a snapshot of the collection,
starting from the live store with no armed timers and zeroed counters. -/
def reload_jobs_from_db (store : Store) (t : Time) : ReconcileResult :=
  store.foldl (reconcileStep t) ⟨store, [], 0, 0, false⟩

/-- C5: a persisted ONE_SHOT record processed by the Reconciler is re-armed
via a one-shot timer and counted among the reloaded when its fire time is
still in the future; otherwise it is deleted and counted among the removed,
with no timer armed for it and hence no send ever performed (the Reconciler
itself never sends; the delete branch arms nothing). -/
theorem C5_reconciler_oneshot (t : Time) (acc : ReconcileResult)
    (sid : String) (post : Post) (run_date : Time)
    (hnc : acc.crashed = false)
    (hty : post.type = some "agendada")
    (hrd : post.scheduled_for = some run_date) :
    (run_date > t → reconcileStep t acc (sid, post) =
      { acc with armed := acc.armed ++ [.once sid run_date],
                 jobs_reloaded := acc.jobs_reloaded + 1 }) ∧
    (¬ run_date > t → reconcileStep t acc (sid, post) =
      { acc with store := deleteDoc acc.store sid,
                 jobs_deleted := acc.jobs_deleted + 1 }) := by
  constructor <;> intro h <;>
    simp [reconcileStep, hnc, entryAction, hty, hrd, h, applyRAction]

/-- Concrete past-due ONE_SHOT record and a fresh Reconciler state, for C5. -/
def pastOneShot : Post :=
  { type := some "agendada", chat_id := some "@canal", text := some "tarde"
    scheduled_for := some 10, user_id := some 1 }

def accC5 : ReconcileResult := ⟨[("p1", pastOneShot)], [], 0, 0, false⟩

theorem C5_reconciler_oneshot_witness :
    ((10 : Int) > 100 → reconcileStep 100 accC5 ("p1", pastOneShot) =
      { accC5 with armed := accC5.armed ++ [.once "p1" 10],
                   jobs_reloaded := accC5.jobs_reloaded + 1 }) ∧
    (¬ (10 : Int) > 100 → reconcileStep 100 accC5 ("p1", pastOneShot) =
      { accC5 with store := deleteDoc accC5.store "p1",
                   jobs_deleted := accC5.jobs_deleted + 1 }) :=
  C5_reconciler_oneshot 100 accC5 "p1" pastOneShot 10 rfl rfl rfl

/-- C10: a RECURRING record whose `repetitions` key is absent is left
completely unmutated by a fully successful fire of the dispatcher
(`post.get("repetitions") is not None` fails, so neither delete nor
decrement runs), while the startup Reconciler still re-arms it, because
`post.get('repetitions', 1)` defaults the missing count to 1 when deciding
whether sends remain. -/
theorem C10_missing_repetitions (store : Store) (schedule_id : String) (post : Post)
    (t : Time) (acc : ReconcileResult) (start_date : Time) (istr : String) (mins : Int)
    (hget : getDoc store schedule_id = some post)
    (hty : post.type = some "recorrente")
    (hrep : post.repetitions = none)
    (hchat : post.chat_id.isSome)
    (hbtn : post.buttons.any (fun b => b.url.isNone) = false)
    (hnc : acc.crashed = false)
    (hsd : post.start_date = some start_date)
    (hint : post.interval = some istr)
    (hparse : parseIntervalMinutes istr = some mins) :
    send_post store schedule_id true true = store ∧
    reconcileStep t acc (schedule_id, post) =
      { acc with armed := acc.armed ++ [.repeating schedule_id mins start_date],
                 jobs_reloaded := acc.jobs_reloaded + 1 } := by
  constructor
  · rw [send_post_success hget hchat hbtn]
    simp [applySendMutation, hty, hrep]
  · simp [reconcileStep, hnc, entryAction, hty, hsd, hrep, hint, hparse, applyRAction]

/-- Concrete RECURRING record lacking the `repetitions` key, for C10. -/
def noRepPost : Post :=
  { type := some "recorrente", chat_id := some "@canal", text := some "loop"
    interval := some "30m", start_date := some 50, user_id := some 1 }

def noRepStore : Store := [("n1", noRepPost)]

def accC10 : ReconcileResult := ⟨noRepStore, [], 0, 0, false⟩

theorem C10_missing_repetitions_witness :
    send_post noRepStore "n1" true true = noRepStore ∧
    reconcileStep 100 accC10 ("n1", noRepPost) =
      { accC10 with armed := accC10.armed ++ [.repeating "n1" 30 50],
                    jobs_reloaded := accC10.jobs_reloaded + 1 } :=
  C10_missing_repetitions noRepStore "n1" noRepPost 100 accC10 50 "30m" 30
    rfl rfl rfl (by decide) (by decide) rfl rfl rfl (by decide)

/-! ## Reconciler closed form and idempotence (C6) -/

/-- The armed timer, if any, contributed by one streamed document. -/
def armJobOf (t : Time) (e : String × Post) : Option ArmedJob :=
  match entryAction t e.2 with
  | .armOnce rd => some (.once e.1 rd)
  | .armRep m sd => some (.repeating e.1 m sd)
  | _ => none

def isDelEntry (t : Time) (e : String × Post) : Bool :=
  match entryAction t e.2 with
  | .del => true
  | _ => false

def isCrashEntry (t : Time) (e : String × Post) : Bool :=
  match entryAction t e.2 with
  | .crash => true
  | _ => false

/-- Ids of the documents one clean Reconciler pass deletes. -/
def delIds (t : Time) (l : List (String × Post)) : List String :=
  (l.filter (isDelEntry t)).map Prod.fst

def containsStr (ids : List String) (x : String) : Bool :=
  ids.any (fun y => x == y)

theorem filter_deleteDoc (s : Store) (sid : String) (ids : List String) :
    (deleteDoc s sid).filter (fun d => !containsStr ids d.1)
      = s.filter (fun d => !containsStr (sid :: ids) d.1) := by
  unfold deleteDoc
  rw [List.filter_filter]
  congr 1
  funext d
  simp [containsStr, Bool.not_or, Bool.and_comm]

theorem delIds_cons_pos (t : Time) (e : String × Post) (l : List (String × Post))
    (h : isDelEntry t e = true) : delIds t (e :: l) = e.1 :: delIds t l := by
  simp [delIds, List.filter_cons, h]

theorem delIds_cons_neg (t : Time) (e : String × Post) (l : List (String × Post))
    (h : isDelEntry t e = false) : delIds t (e :: l) = delIds t l := by
  simp [delIds, List.filter_cons, h]

theorem reconcile_foldl_clean (t : Time) :
    ∀ (l : List (String × Post)) (s : Store) (ar : List ArmedJob) (nr nd : Nat),
      (∀ e ∈ l, isCrashEntry t e = false) →
      l.foldl (reconcileStep t) ⟨s, ar, nr, nd, false⟩ =
        ⟨s.filter (fun d => !containsStr (delIds t l) d.1),
         ar ++ l.filterMap (armJobOf t),
         nr + (l.filterMap (armJobOf t)).length,
         nd + (l.filter (isDelEntry t)).length,
         false⟩ := by
  intro l
  induction l with
  | nil =>
    intro s ar nr nd _
    simp [delIds, containsStr]
  | cons e l ih =>
    intro s ar nr nd hcl
    have he := hcl e (List.mem_cons_self e l)
    have htl : ∀ x ∈ l, isCrashEntry t x = false :=
      fun x hx => hcl x (List.mem_cons_of_mem e hx)
    rw [List.foldl_cons]
    have hstep : reconcileStep t ⟨s, ar, nr, nd, false⟩ e
        = applyRAction ⟨s, ar, nr, nd, false⟩ e.1 (entryAction t e.2) := by
      simp [reconcileStep]
    rw [hstep]
    cases hA : entryAction t e.2 with
    | armOnce rd =>
      rw [show applyRAction ⟨s, ar, nr, nd, false⟩ e.1 (.armOnce rd)
          = ⟨s, ar ++ [ArmedJob.once e.1 rd], nr + 1, nd, false⟩ from rfl]
      rw [ih s (ar ++ [ArmedJob.once e.1 rd]) (nr + 1) nd htl]
      have harm : armJobOf t e = some (.once e.1 rd) := by simp [armJobOf, hA]
      have hdel : isDelEntry t e = false := by simp [isDelEntry, hA]
      congr 1
      · rw [delIds_cons_neg t e l hdel]
      · simp [List.filterMap_cons, harm]
      · simp [List.filterMap_cons, harm]
        omega
      · simp [List.filter_cons, hdel]
    | armRep m sd =>
      rw [show applyRAction ⟨s, ar, nr, nd, false⟩ e.1 (.armRep m sd)
          = ⟨s, ar ++ [ArmedJob.repeating e.1 m sd], nr + 1, nd, false⟩ from rfl]
      rw [ih s (ar ++ [ArmedJob.repeating e.1 m sd]) (nr + 1) nd htl]
      have harm : armJobOf t e = some (.repeating e.1 m sd) := by simp [armJobOf, hA]
      have hdel : isDelEntry t e = false := by simp [isDelEntry, hA]
      congr 1
      · rw [delIds_cons_neg t e l hdel]
      · simp [List.filterMap_cons, harm]
      · simp [List.filterMap_cons, harm]
        omega
      · simp [List.filter_cons, hdel]
    | del =>
      rw [show applyRAction ⟨s, ar, nr, nd, false⟩ e.1 .del
          = ⟨deleteDoc s e.1, ar, nr, nd + 1, false⟩ from rfl]
      rw [ih (deleteDoc s e.1) ar nr (nd + 1) htl]
      have harm : armJobOf t e = none := by simp [armJobOf, hA]
      have hdel : isDelEntry t e = true := by simp [isDelEntry, hA]
      congr 1
      · rw [filter_deleteDoc, delIds_cons_pos t e l hdel]
      · simp [List.filterMap_cons, harm]
      · simp [List.filterMap_cons, harm]
      · simp [List.filter_cons, hdel]
        omega
    | skip =>
      rw [show applyRAction ⟨s, ar, nr, nd, false⟩ e.1 .skip
          = ⟨s, ar, nr, nd, false⟩ from rfl]
      rw [ih s ar nr nd htl]
      have harm : armJobOf t e = none := by simp [armJobOf, hA]
      have hdel : isDelEntry t e = false := by simp [isDelEntry, hA]
      congr 1
      · rw [delIds_cons_neg t e l hdel]
      · simp [List.filterMap_cons, harm]
      · simp [List.filterMap_cons, harm]
      · simp [List.filter_cons, hdel]
    | crash =>
      have : isCrashEntry t e = true := by simp [isCrashEntry, hA]
      rw [this] at he
      exact absurd he (by simp)

theorem reconcileStep_crashed (t : Time) (acc : ReconcileResult) (e : String × Post) :
    (reconcileStep t acc e).crashed = (acc.crashed || isCrashEntry t e) := by
  by_cases hc : acc.crashed = true
  · simp [reconcileStep, hc]
  · have hcf : acc.crashed = false := by
      cases hb : acc.crashed with
      | true => exact absurd hb hc
      | false => rfl
    cases hA : entryAction t e.2 <;>
      simp [reconcileStep, hcf, applyRAction, isCrashEntry, hA]

theorem reconcile_foldl_crashed (t : Time) :
    ∀ (l : List (String × Post)) (acc : ReconcileResult),
      (l.foldl (reconcileStep t) acc).crashed
        = (acc.crashed || l.any (isCrashEntry t)) := by
  intro l
  induction l with
  | nil => intro acc; simp
  | cons e l ih =>
    intro acc
    rw [List.foldl_cons, ih, reconcileStep_crashed]
    simp [Bool.or_assoc]

theorem filterMap_filter_of_none {α β : Type} (f : α → Option β) (p : α → Bool)
    (l : List α) (h : ∀ a ∈ l, f a ≠ none → p a = true) :
    (l.filter p).filterMap f = l.filterMap f := by
  induction l with
  | nil => rfl
  | cons a l ih =>
    have htl : ∀ x ∈ l, f x ≠ none → p x = true :=
      fun x hx => h x (List.mem_cons_of_mem a hx)
    by_cases hp : p a = true
    · rw [List.filter_cons, if_pos hp, List.filterMap_cons, List.filterMap_cons]
      cases hfa : f a <;> simp [ih htl]
    · have hpf : p a = false := by
        cases hb : p a with
        | true => exact absurd hb hp
        | false => rfl
      have hfa : f a = none := by
        by_contra hne
        exact hp (h a (List.mem_cons_self a l) hne)
      rw [List.filter_cons, hpf, List.filterMap_cons, hfa]
      simpa using ih htl

theorem isDelEntry_eq_false_of_arm {t : Time} {e : String × Post}
    (h : armJobOf t e ≠ none) : isDelEntry t e = false := by
  cases hA : entryAction t e.2 with
  | armOnce rd => simp [isDelEntry, hA]
  | armRep m sd => simp [isDelEntry, hA]
  | del => exact absurd (by simp [armJobOf, hA]) h
  | skip => simp [isDelEntry, hA]
  | crash => simp [isDelEntry, hA]

/-- C6: with unique document ids and a crash-free first pass, running the
Reconciler twice in a row with no intervening fires is idempotent: the
second pass arms exactly the same timers in the same order, performs no
deletion beyond the past-due cleanup of the first pass, and leaves the
store exactly as the first pass left it. -/
theorem C6_reconciler_idempotent (store : Store) (t : Time)
    (hnd : (store.map Prod.fst).Nodup)
    (h1 : (reload_jobs_from_db store t).crashed = false) :
    (reload_jobs_from_db (reload_jobs_from_db store t).store t).armed
        = (reload_jobs_from_db store t).armed ∧
    (reload_jobs_from_db (reload_jobs_from_db store t).store t).store
        = (reload_jobs_from_db store t).store ∧
    (reload_jobs_from_db (reload_jobs_from_db store t).store t).jobs_deleted = 0 ∧
    (reload_jobs_from_db (reload_jobs_from_db store t).store t).crashed = false := by
  have hclean : ∀ e ∈ store, isCrashEntry t e = false := by
    intro e he
    have hcr := reconcile_foldl_crashed t store ⟨store, [], 0, 0, false⟩
    rw [reload_jobs_from_db, hcr] at h1
    simp only [Bool.false_or] at h1
    simpa using List.any_eq_false.mp h1 e he
  have hr1 : reload_jobs_from_db store t =
      ⟨store.filter (fun d => !containsStr (delIds t store) d.1),
       [] ++ store.filterMap (armJobOf t),
       0 + (store.filterMap (armJobOf t)).length,
       0 + (store.filter (isDelEntry t)).length, false⟩ :=
    reconcile_foldl_clean t store store [] 0 0 hclean
  set s1 : Store := store.filter (fun d => !containsStr (delIds t store) d.1) with hs1
  have hmem1 : ∀ e ∈ s1, e ∈ store ∧ (!containsStr (delIds t store) e.1) = true := by
    intro e he
    exact List.mem_filter.mp he
  have hnodel : ∀ e ∈ s1, isDelEntry t e = false := by
    intro e he
    obtain ⟨hmem, hpred⟩ := hmem1 e he
    by_contra hdel
    have hdel1 : isDelEntry t e = true := by
      cases hb : isDelEntry t e with
      | true => rfl
      | false => exact absurd hb hdel
    have hin : e.1 ∈ delIds t store := by
      rw [delIds]
      exact List.mem_map_of_mem Prod.fst (List.mem_filter.mpr ⟨hmem, hdel1⟩)
    have : containsStr (delIds t store) e.1 = true := by
      rw [containsStr]
      exact List.any_eq_true.mpr ⟨e.1, hin, by simp⟩
    rw [this] at hpred
    simp at hpred
  have hclean1 : ∀ e ∈ s1, isCrashEntry t e = false :=
    fun e he => hclean e (hmem1 e he).1
  have hfilnil : s1.filter (isDelEntry t) = [] := by
    apply List.filter_eq_nil_iff.mpr
    intro a ha
    simp [hnodel a ha]
  have hdelids1 : delIds t s1 = [] := by
    rw [delIds, hfilnil]
    rfl
  have hfilself : s1.filter (fun d => !containsStr (delIds t s1) d.1) = s1 := by
    rw [hdelids1]
    apply List.filter_eq_self.mpr
    intro a _
    simp [containsStr]
  have hfm : s1.filterMap (armJobOf t) = store.filterMap (armJobOf t) := by
    rw [hs1]
    apply filterMap_filter_of_none
    intro a ha hf
    have hadel : isDelEntry t a = false := isDelEntry_eq_false_of_arm hf
    cases hb : containsStr (delIds t store) a.1 with
    | false => simp
    | true =>
      rw [containsStr] at hb
      obtain ⟨y, hy, hxy⟩ := List.any_eq_true.mp hb
      have hya : a.1 = y := by simpa using hxy
      rw [delIds] at hy
      obtain ⟨e, he, hey⟩ := List.mem_map.mp hy
      obtain ⟨hemem, hedel⟩ := List.mem_filter.mp he
      have hkey : Prod.fst a = Prod.fst e := by rw [hey, ← hya]
      have : a = e := List.inj_on_of_nodup_map hnd ha hemem hkey
      rw [this] at hadel
      rw [hedel] at hadel
      simp at hadel
  have hr2 : reload_jobs_from_db s1 t =
      ⟨s1, [] ++ store.filterMap (armJobOf t),
       0 + (store.filterMap (armJobOf t)).length, 0, false⟩ := by
    have h2 := reconcile_foldl_clean t s1 s1 [] 0 0 hclean1
    rw [hfilself, hfm, hfilnil] at h2
    simpa using h2
  have hstore1 : (reload_jobs_from_db store t).store = s1 := by rw [hr1]
  refine ⟨?_, ?_, ?_, ?_⟩
  · rw [hstore1, hr2, hr1]
  · rw [hstore1, hr2]
  · rw [hstore1, hr2]
  · rw [hstore1, hr2]

/-- Concrete future ONE_SHOT record, for the C6 witness store. -/
def futOneShot : Post :=
  { type := some "agendada", chat_id := some "@canal", text := some "cedo"
    scheduled_for := some 500, user_id := some 1 }

def storeC6 : Store := [("a", futOneShot), ("b", pastOneShot), ("c", recPost2)]

theorem C6_reconciler_idempotent_witness :
    (reload_jobs_from_db (reload_jobs_from_db storeC6 100).store 100).armed
        = (reload_jobs_from_db storeC6 100).armed ∧
    (reload_jobs_from_db (reload_jobs_from_db storeC6 100).store 100).store
        = (reload_jobs_from_db storeC6 100).store ∧
    (reload_jobs_from_db (reload_jobs_from_db storeC6 100).store 100).jobs_deleted = 0 ∧
    (reload_jobs_from_db (reload_jobs_from_db storeC6 100).store 100).crashed = false :=
  C6_reconciler_idempotent storeC6 100 (by decide) (by decide)

/-! ## Draft Builder (ConversationHandler, src/main.py lines 124–297, 368–386)

The dialogue is driven by python-telegram-bot's `ConversationHandler`: for
an update arriving while a conversation is in state `st`, the handlers of
`states[st]` are tried in order; if none of their filters matches, the
`fallbacks` are tried (`/cancel` as a command, then the exact text
`❌ Cancelar`); if nothing matches, the update is not consumed and the
conversation keeps its state and data.  Every handler is wrapped in the
`@restricted` decorator: a caller whose id is not in `ADMIN_IDS` gets an
"Acesso Negado" reply and the handler body never runs — the handler
returns `None`, which keeps the current conversation state.

The external pieces are parameters: `adminIds` models the `ADMIN_IDS`
allow-list, `parseDT` models `datetime.strptime(..., '%d/%m/%Y %H:%M')`
followed by `SAO_PAULO_TZ.localize` (`none` = ValueError), and `newId`
models the document id Firestore assigns in `save_schedule`. -/

inductive ConvState
  | AWAITING_CHANNEL | AWAITING_MEDIA | AWAITING_TEXT | AWAITING_BUTTON_PROMPT
  | AWAITING_BUTTON_TEXT | AWAITING_BUTTON_URL | AWAITING_PIN_OPTION
  | AWAITING_SCHEDULE_TIME | AWAITING_INTERVAL | AWAITING_REPETITIONS
  | AWAITING_START_TIME | AWAITING_CONFIRMATION
  | ENDED
  deriving DecidableEq

/-- An inbound update relevant to the conversation: a text message (commands
are text messages starting with `/`), a photo, or a video. -/
inductive Event
  | message (text : String)
  | photoMsg (fileId : String)
  | videoMsg (fileId : String)
  deriving DecidableEq

/-- `filters.COMMAND`: the message text starts with a slash. -/
def isCommandText (s : String) : Bool :=
  match s.data with
  | c :: _ => c == '/'
  | [] => false

/-- First whitespace-delimited token, used for `CommandHandler` matching. -/
def firstWord (s : String) : String :=
  ⟨s.data.takeWhile (fun c => c != ' ')⟩

/-- `CommandHandler(cmd, ...)`: the message is the command, possibly with
arguments. -/
def matchesCommand (cmd s : String) : Bool :=
  firstWord s == "/" ++ cmd

/-- Python `str.lower()` as used on the yes/no answers and the interval
(character-wise lowercasing). -/
def lowerStr (s : String) : String :=
  ⟨s.data.map Char.toLower⟩

/-- The handler callbacks of the `states` table and `fallbacks`. -/
inductive HandlerId
  | hChannel | hMedia | hSkipMedia | hText | hButtonPrompt | hButtonText
  | hButtonUrl | hPinOption | hScheduleTime | hInterval | hRepetitions
  | hStartTime | hSave | hCancel
  deriving DecidableEq

/-- The `states` dictionary of `conv_handler` (lines 370–383): which handler,
if any, consumes the event in each state.  `filters.TEXT & ~filters.COMMAND`
accepts any non-command text; `filters.Regex(...)` filters are the exact
matches used in the source. -/
def matchState : ConvState → Event → Option HandlerId
  | .AWAITING_CHANNEL, .message t => if !isCommandText t then some .hChannel else none
  | .AWAITING_MEDIA, .photoMsg _ => some .hMedia
  | .AWAITING_MEDIA, .videoMsg _ => some .hMedia
  | .AWAITING_MEDIA, .message t => if matchesCommand "pular" t then some .hSkipMedia else none
  | .AWAITING_TEXT, .message t => if !isCommandText t then some .hText else none
  | .AWAITING_BUTTON_PROMPT, .message t =>
    if t == "Sim" || t == "Não" then some .hButtonPrompt else none
  | .AWAITING_BUTTON_TEXT, .message t => if !isCommandText t then some .hButtonText else none
  | .AWAITING_BUTTON_URL, .message t => if !isCommandText t then some .hButtonUrl else none
  | .AWAITING_PIN_OPTION, .message t =>
    if t == "Sim" || t == "Não" then some .hPinOption else none
  | .AWAITING_SCHEDULE_TIME, .message t => if !isCommandText t then some .hScheduleTime else none
  | .AWAITING_INTERVAL, .message t => if !isCommandText t then some .hInterval else none
  | .AWAITING_REPETITIONS, .message t =>
    if !t.data.isEmpty && t.data.all Char.isDigit then some .hRepetitions else none
  | .AWAITING_START_TIME, .message t => if !isCommandText t then some .hStartTime else none
  | .AWAITING_CONFIRMATION, .message t => if t == "✅ Confirmar" then some .hSave else none
  | _, _ => none

/-- The `fallbacks` list (line 384): `CommandHandler("cancel", cancel)`,
then `MessageHandler(filters.Regex('^❌ Cancelar$'), cancel)`. -/
def matchFallback : Event → Option HandlerId
  | .message t =>
    if matchesCommand "cancel" t then some .hCancel
    else if t == "❌ Cancelar" then some .hCancel
    else none
  | _ => none

/-- Result of delivering one update to the conversation: the next state, the
draft (`context.user_data`), the store, and the timer armed by the update,
if any. -/
structure ConvStepResult where
  state : ConvState
  draft : Post
  store : Store
  armed : Option ArmedJob
  deriving DecidableEq

/-- The empty `context.user_data` (after `.clear()`). -/
def emptyDraft : Post := {}

/-- Replace the url of the last collected button
(`user_data['buttons'][-1]['url'] = ...`). -/
def setLastUrl : List Button → String → List Button
  | [], _ => []
  | [b], u => [{ b with url := some u }]
  | b :: rest, u => b :: setLastUrl rest u

/-- `save_schedule` (lines 264–290): stamps `user_id` onto the draft, adds
the document to the store, then arms the timer from the freshly read fields
(`run_once` on `scheduled_for` for one-shots, otherwise `run_repeating`
from the parsed interval and `start_date`); a missing key or unparsable
interval raises inside the `try:` (record already created, nothing armed).
Either way `user_data.clear()` runs and the conversation ends. -/
def save_schedule (uid : Int) (newId : String) (d : Post) (store : Store) :
    Store × Option ArmedJob :=
  let d1 := { d with user_id := some uid }
  let armReq : Option ArmedJob :=
    if d1.type = some "agendada" then
      match d1.scheduled_for with
      | some tf => some (.once newId tf)
      | none => none
    else
      match d1.start_date, d1.interval with
      | some sd, some istr =>
        match parseIntervalMinutes istr with
        | some mins => some (.repeating newId mins sd)
        | none => none
      | _, _ => none
  (store ++ [(newId, d1)], armReq)

/-- The handler bodies (each is the Python callback with the `@restricted`
gate already passed).  States returned are the `return AWAITING_...`
statements; an uncaught exception inside a handler leaves the conversation
state unchanged (no return value reaches the ConversationHandler). -/
def runHandler (parseDT : String → Option Time) (uid : Int) (newId : String)
    (st : ConvState) (d : Post) (store : Store) (ev : Event) :
    HandlerId → ConvStepResult
  | .hChannel =>
    match ev with
    | .message t => ⟨.AWAITING_MEDIA, { d with chat_id := some t }, store, none⟩
    | _ => ⟨st, d, store, none⟩
  | .hMedia =>
    match ev with
    | .photoMsg fid =>
      ⟨.AWAITING_TEXT, { d with media_file_id := some fid, media_type := some "photo" },
       store, none⟩
    | .videoMsg fid =>
      ⟨.AWAITING_TEXT, { d with media_file_id := some fid, media_type := some "video" },
       store, none⟩
    | .message _ => ⟨.AWAITING_TEXT, d, store, none⟩
  | .hSkipMedia =>
    ⟨.AWAITING_TEXT, { d with media_file_id := none, media_type := none }, store, none⟩
  | .hText =>
    match ev with
    | .message t => ⟨.AWAITING_BUTTON_PROMPT, { d with text := some t }, store, none⟩
    | _ => ⟨st, d, store, none⟩
  | .hButtonPrompt =>
    match ev with
    | .message t =>
      if lowerStr t == "sim" then ⟨.AWAITING_BUTTON_TEXT, d, store, none⟩
      else ⟨.AWAITING_PIN_OPTION, d, store, none⟩
    | _ => ⟨st, d, store, none⟩
  | .hButtonText =>
    match ev with
    | .message t =>
      ⟨.AWAITING_BUTTON_URL, { d with buttons := d.buttons ++ [{ text := t }] }, store, none⟩
    | _ => ⟨st, d, store, none⟩
  | .hButtonUrl =>
    match ev with
    | .message t =>
      match d.buttons with
      | [] => ⟨st, d, store, none⟩
      | _ => ⟨.AWAITING_PIN_OPTION, { d with buttons := setLastUrl d.buttons t }, store, none⟩
    | _ => ⟨st, d, store, none⟩
  | .hPinOption =>
    match ev with
    | .message t =>
      let d1 := { d with pin_post := some (lowerStr t == "sim") }
      match d.type with
      | some ty =>
        if ty = "agendada" then ⟨.AWAITING_SCHEDULE_TIME, d1, store, none⟩
        else ⟨.AWAITING_INTERVAL, d1, store, none⟩
      | none => ⟨st, d1, store, none⟩
    | _ => ⟨st, d, store, none⟩
  | .hScheduleTime =>
    match ev with
    | .message t =>
      match parseDT t with
      | some dt => ⟨.AWAITING_CONFIRMATION, { d with scheduled_for := some dt }, store, none⟩
      | none => ⟨.AWAITING_SCHEDULE_TIME, d, store, none⟩
    | _ => ⟨st, d, store, none⟩
  | .hInterval =>
    match ev with
    | .message t =>
      ⟨.AWAITING_REPETITIONS, { d with interval := some (lowerStr t) }, store, none⟩
    | _ => ⟨st, d, store, none⟩
  | .hRepetitions =>
    match ev with
    | .message t =>
      match pyInt? t with
      | some n => ⟨.AWAITING_START_TIME, { d with repetitions := some n }, store, none⟩
      | none => ⟨st, d, store, none⟩
    | _ => ⟨st, d, store, none⟩
  | .hStartTime =>
    match ev with
    | .message t =>
      match parseDT t with
      | some dt => ⟨.AWAITING_CONFIRMATION, { d with start_date := some dt }, store, none⟩
      | none => ⟨.AWAITING_START_TIME, d, store, none⟩
    | _ => ⟨st, d, store, none⟩
  | .hSave =>
    let (store1, armReq) := save_schedule uid newId d store
    ⟨.ENDED, emptyDraft, store1, armReq⟩
  | .hCancel => ⟨.ENDED, emptyDraft, store, none⟩

/-- One update delivered to the conversation: the `states` table first, then
the `fallbacks`; every matched handler passes through the `@restricted`
gate, which rejects a caller outside `ADMIN_IDS` before any state read or
write (the handler returns early, so the conversation state is kept).  A
finished conversation (`ENDED`) no longer consumes updates. -/
def convStep (adminIds : List Int) (parseDT : String → Option Time) (uid : Int)
    (newId : String) (st : ConvState) (d : Post) (store : Store) (ev : Event) :
    ConvStepResult :=
  if st = .ENDED then ⟨st, d, store, none⟩
  else
    match matchState st ev with
    | some h =>
      if uid ∈ adminIds then runHandler parseDT uid newId st d store ev h
      else ⟨st, d, store, none⟩
    | none =>
      match matchFallback ev with
      | some h =>
        if uid ∈ adminIds then runHandler parseDT uid newId st d store ev h
        else ⟨st, d, store, none⟩
      | none => ⟨st, d, store, none⟩

theorem convStep_run_state (adminIds : List Int) (pd : String → Option Time)
    (uid : Int) (newId : String) (st : ConvState) (d : Post) (store : Store)
    (ev : Event) (h : HandlerId)
    (huid : uid ∈ adminIds) (hst : ¬ st = .ENDED)
    (hm : matchState st ev = some h) :
    convStep adminIds pd uid newId st d store ev
      = runHandler pd uid newId st d store ev h := by
  simp [convStep, hst, hm, huid]

theorem convStep_run_fallback (adminIds : List Int) (pd : String → Option Time)
    (uid : Int) (newId : String) (st : ConvState) (d : Post) (store : Store)
    (ev : Event) (h : HandlerId)
    (huid : uid ∈ adminIds) (hst : ¬ st = .ENDED)
    (hm : matchState st ev = none) (hf : matchFallback ev = some h) :
    convStep adminIds pd uid newId st d store ev
      = runHandler pd uid newId st d store ev h := by
  simp [convStep, hst, hm, hf, huid]

/-- C7: an update from a caller outside the allow-list is rejected by the
`@restricted` gate before the handler body runs: whatever the dialogue
state and whatever the event, the draft, the state, and the store are
exactly what they were, and nothing is armed. -/
theorem C7_unauthorized_rejected (adminIds : List Int) (pd : String → Option Time)
    (uid : Int) (newId : String) (st : ConvState) (d : Post) (store : Store)
    (ev : Event) (h : uid ∉ adminIds) :
    convStep adminIds pd uid newId st d store ev = ⟨st, d, store, none⟩ := by
  unfold convStep
  split
  · rfl
  · cases hm : matchState st ev with
    | some hid => simp [hm, h]
    | none =>
      cases hf : matchFallback ev with
      | some hid => simp [hm, hf, h]
      | none => simp [hm, hf]

theorem C7_unauthorized_rejected_witness :
    (99 : Int) ∉ [1] ∧
    convStep [1] (fun _ => none) 99 "idw" .AWAITING_TEXT recPost2 recStore
        (.message "ola")
      = ⟨.AWAITING_TEXT, recPost2, recStore, none⟩ :=
  ⟨by decide,
   C7_unauthorized_rejected [1] (fun _ => none) 99 "idw" .AWAITING_TEXT recPost2
     recStore (.message "ola") (by decide)⟩

/-- Draft mid-way through a recurring flow, about to receive the interval. -/
def draftC4 : Post :=
  { type := some "recorrente", chat_id := some "@canal", text := some "oi"
    pin_post := some false }

/-- C4: the code evaluated at the failing input.  In AWAITING_INTERVAL the
input "Isto NAO e intervalo" — which does not match `<integer><unit>` with
unit in m, h, d — is accepted anyway: `get_interval` stores the lowercased
text as the draft's interval and advances the dialogue to
AWAITING_REPETITIONS.  No shape check, re-prompt, or unchanged-state
behaviour exists at this step. -/
theorem C4_interval_not_validated :
    convStep [1] (fun _ => none) 1 "id9" .AWAITING_INTERVAL draftC4 []
        (.message "Isto NAO e intervalo")
      = ⟨.AWAITING_REPETITIONS,
         { draftC4 with interval := some "isto nao e intervalo" }, [], none⟩ := by
  decide

/-- C9 (counterexample): in AWAITING_CHANNEL — a non-terminal dialogue
state — the cancel token `❌ Cancelar` does not cancel: the state's own
`filters.TEXT & ~filters.COMMAND` handler consumes it before the fallbacks
are consulted, so the conversation advances to AWAITING_MEDIA with the
token stored as the destination channel; the draft is mutated and the
dialogue is not ended. -/
theorem C9_counterexample :
    convStep [1] (fun _ => none) 1 "id9" .AWAITING_CHANNEL emptyDraft []
        (.message "❌ Cancelar")
      = ⟨.AWAITING_MEDIA, { emptyDraft with chat_id := some "❌ Cancelar" }, [],
         none⟩ := by
  decide

/-- C9 (amended): the `/cancel` command is accepted as a fallback from every
active dialogue state: it ends the conversation, clears the whole draft,
creates no record and arms no timer.  The `❌ Cancelar` text token has the
same effect only in the states whose own handlers do not swallow plain
text — media, button decision, pin decision, repetitions and
confirmation.  In the seven free-text states the token never reaches the
fallback: the state's own handler consumes it and the conversation is not
cancelled — it does not end, no record is created and no timer is armed
(in a date-prompt state specifically, `strptime` rejects the token and the
handler re-prompts in the same state with the draft untouched). -/
theorem C9_cancel_fallback (adminIds : List Int) (pd : String → Option Time)
    (uid : Int) (newId : String) (st : ConvState) (d : Post) (store : Store)
    (huid : uid ∈ adminIds) (hst : ¬ st = .ENDED) :
    convStep adminIds pd uid newId st d store (.message "/cancel")
      = ⟨.ENDED, emptyDraft, store, none⟩ ∧
    ((st = .AWAITING_MEDIA ∨ st = .AWAITING_BUTTON_PROMPT ∨ st = .AWAITING_PIN_OPTION ∨
      st = .AWAITING_REPETITIONS ∨ st = .AWAITING_CONFIRMATION) →
     convStep adminIds pd uid newId st d store (.message "❌ Cancelar")
      = ⟨.ENDED, emptyDraft, store, none⟩) ∧
    ((st = .AWAITING_CHANNEL ∨ st = .AWAITING_TEXT ∨ st = .AWAITING_BUTTON_TEXT ∨
      st = .AWAITING_BUTTON_URL ∨ st = .AWAITING_SCHEDULE_TIME ∨
      st = .AWAITING_INTERVAL ∨ st = .AWAITING_START_TIME) →
     (convStep adminIds pd uid newId st d store (.message "❌ Cancelar")).state ≠ .ENDED ∧
     (convStep adminIds pd uid newId st d store (.message "❌ Cancelar")).store = store ∧
     (convStep adminIds pd uid newId st d store (.message "❌ Cancelar")).armed = none) ∧
    ((st = .AWAITING_SCHEDULE_TIME ∨ st = .AWAITING_START_TIME) →
     pd "❌ Cancelar" = none →
     convStep adminIds pd uid newId st d store (.message "❌ Cancelar")
      = ⟨st, d, store, none⟩) := by
  refine ⟨?_, ?_, ?_, ?_⟩
  · have hm : matchState st (.message "/cancel") = none := by
      cases st <;> decide
    have hf : matchFallback (.message "/cancel") = some .hCancel := by decide
    rw [convStep_run_fallback adminIds pd uid newId st d store _ _ huid hst hm hf]
    rfl
  · intro hdisj
    have hm : matchState st (.message "❌ Cancelar") = none := by
      rcases hdisj with h | h | h | h | h <;> subst h <;> decide
    have hf : matchFallback (.message "❌ Cancelar") = some .hCancel := by decide
    rw [convStep_run_fallback adminIds pd uid newId st d store _ _ huid hst hm hf]
    rfl
  · intro hdisj
    rcases hdisj with h | h | h | h | h | h | h
    · subst h
      rw [convStep_run_state adminIds pd uid newId .AWAITING_CHANNEL d store
        (.message "❌ Cancelar") .hChannel huid (by decide) (by decide)]
      exact ⟨fun hc => ConvState.noConfusion hc, rfl, rfl⟩
    · subst h
      rw [convStep_run_state adminIds pd uid newId .AWAITING_TEXT d store
        (.message "❌ Cancelar") .hText huid (by decide) (by decide)]
      exact ⟨fun hc => ConvState.noConfusion hc, rfl, rfl⟩
    · subst h
      rw [convStep_run_state adminIds pd uid newId .AWAITING_BUTTON_TEXT d store
        (.message "❌ Cancelar") .hButtonText huid (by decide) (by decide)]
      exact ⟨fun hc => ConvState.noConfusion hc, rfl, rfl⟩
    · subst h
      rw [convStep_run_state adminIds pd uid newId .AWAITING_BUTTON_URL d store
        (.message "❌ Cancelar") .hButtonUrl huid (by decide) (by decide)]
      cases hb : d.buttons with
      | nil => simp [runHandler, hb]
      | cons b bs => simp [runHandler, hb]
    · subst h
      rw [convStep_run_state adminIds pd uid newId .AWAITING_SCHEDULE_TIME d store
        (.message "❌ Cancelar") .hScheduleTime huid (by decide) (by decide)]
      cases hp : pd "❌ Cancelar" with
      | none => simp [runHandler, hp]
      | some dt => simp [runHandler, hp]
    · subst h
      rw [convStep_run_state adminIds pd uid newId .AWAITING_INTERVAL d store
        (.message "❌ Cancelar") .hInterval huid (by decide) (by decide)]
      exact ⟨fun hc => ConvState.noConfusion hc, rfl, rfl⟩
    · subst h
      rw [convStep_run_state adminIds pd uid newId .AWAITING_START_TIME d store
        (.message "❌ Cancelar") .hStartTime huid (by decide) (by decide)]
      cases hp : pd "❌ Cancelar" with
      | none => simp [runHandler, hp]
      | some dt => simp [runHandler, hp]
  · intro hdisj hpd
    rcases hdisj with h | h
    · subst h
      rw [convStep_run_state adminIds pd uid newId .AWAITING_SCHEDULE_TIME d store
        (.message "❌ Cancelar") .hScheduleTime huid (by decide) (by decide)]
      simp [runHandler, hpd]
    · subst h
      rw [convStep_run_state adminIds pd uid newId .AWAITING_START_TIME d store
        (.message "❌ Cancelar") .hStartTime huid (by decide) (by decide)]
      simp [runHandler, hpd]

theorem C9_cancel_fallback_witness :
    (convStep [1] (fun _ => none) 1 "idw" .AWAITING_CONFIRMATION recPost2 recStore
        (.message "/cancel") = ⟨.ENDED, emptyDraft, recStore, none⟩) ∧
    ((ConvState.AWAITING_CONFIRMATION = .AWAITING_MEDIA ∨
      ConvState.AWAITING_CONFIRMATION = .AWAITING_BUTTON_PROMPT ∨
      ConvState.AWAITING_CONFIRMATION = .AWAITING_PIN_OPTION ∨
      ConvState.AWAITING_CONFIRMATION = .AWAITING_REPETITIONS ∨
      ConvState.AWAITING_CONFIRMATION = .AWAITING_CONFIRMATION) →
     convStep [1] (fun _ => none) 1 "idw" .AWAITING_CONFIRMATION recPost2 recStore
        (.message "❌ Cancelar") = ⟨.ENDED, emptyDraft, recStore, none⟩) ∧
    ((ConvState.AWAITING_CONFIRMATION = .AWAITING_CHANNEL ∨
      ConvState.AWAITING_CONFIRMATION = .AWAITING_TEXT ∨
      ConvState.AWAITING_CONFIRMATION = .AWAITING_BUTTON_TEXT ∨
      ConvState.AWAITING_CONFIRMATION = .AWAITING_BUTTON_URL ∨
      ConvState.AWAITING_CONFIRMATION = .AWAITING_SCHEDULE_TIME ∨
      ConvState.AWAITING_CONFIRMATION = .AWAITING_INTERVAL ∨
      ConvState.AWAITING_CONFIRMATION = .AWAITING_START_TIME) →
     (convStep [1] (fun _ => none) 1 "idw" .AWAITING_CONFIRMATION recPost2 recStore
        (.message "❌ Cancelar")).state ≠ .ENDED ∧
     (convStep [1] (fun _ => none) 1 "idw" .AWAITING_CONFIRMATION recPost2 recStore
        (.message "❌ Cancelar")).store = recStore ∧
     (convStep [1] (fun _ => none) 1 "idw" .AWAITING_CONFIRMATION recPost2 recStore
        (.message "❌ Cancelar")).armed = none) ∧
    ((ConvState.AWAITING_CONFIRMATION = .AWAITING_SCHEDULE_TIME ∨
      ConvState.AWAITING_CONFIRMATION = .AWAITING_START_TIME) →
     (fun _ => (none : Option Time)) "❌ Cancelar" = none →
     convStep [1] (fun _ => none) 1 "idw" .AWAITING_CONFIRMATION recPost2 recStore
        (.message "❌ Cancelar")
      = ⟨.AWAITING_CONFIRMATION, recPost2, recStore, none⟩) :=
  C9_cancel_fallback [1] (fun _ => none) 1 "idw" .AWAITING_CONFIRMATION recPost2
    recStore (by decide) (by decide)

/-- C8: committing a draft through the confirmation step (`✅ Confirmar` in
AWAITING_CONFIRMATION) appends a document that is the draft itself plus the
owner id; reading the record back through the store returns every
operator-supplied field — target, text, media kind and reference, button
list, pin flag, and the timing fields of either kind — exactly as the
operator left them in the draft. -/
theorem C8_commit_round_trip (adminIds : List Int) (pd : String → Option Time)
    (uid : Int) (newId : String) (d : Post) (store : Store)
    (huid : uid ∈ adminIds)
    (hfresh : getDoc store newId = none) :
    ∃ p : Post,
      getDoc (convStep adminIds pd uid newId .AWAITING_CONFIRMATION d store
          (.message "✅ Confirmar")).store newId = some p ∧
      p.chat_id = d.chat_id ∧ p.text = d.text ∧ p.media_type = d.media_type ∧
      p.media_file_id = d.media_file_id ∧ p.buttons = d.buttons ∧
      p.pin_post = d.pin_post ∧ p.scheduled_for = d.scheduled_for ∧
      p.start_date = d.start_date ∧ p.interval = d.interval ∧
      p.repetitions = d.repetitions := by
  have hrun := convStep_run_state adminIds pd uid newId .AWAITING_CONFIRMATION d store
    (.message "✅ Confirmar") .hSave huid (by decide) (by decide)
  have hstore : (runHandler pd uid newId .AWAITING_CONFIRMATION d store
      (.message "✅ Confirmar") .hSave).store
      = store ++ [(newId, { d with user_id := some uid })] := by
    simp [runHandler, save_schedule]
  refine ⟨{ d with user_id := some uid }, ?_, rfl, rfl, rfl, rfl, rfl, rfl, rfl, rfl,
    rfl, rfl⟩
  rw [hrun, hstore, getDoc_append_of_fresh hfresh]
  simp [getDoc]

/-- Complete recurring draft as left by the dialogue, for the C8 witness. -/
def draftC8 : Post :=
  { type := some "recorrente", chat_id := some "@canal", text := some "bom dia"
    media_file_id := some "file77", media_type := some "photo"
    buttons := [{ text := "abrir", url := some "https://example.com" }]
    pin_post := some true, interval := some "12h", repetitions := some 3
    start_date := some 70 }

theorem C8_commit_round_trip_witness :
    ∃ p : Post,
      getDoc (convStep [1] (fun _ => none) 1 "fresh9" .AWAITING_CONFIRMATION draftC8 []
          (.message "✅ Confirmar")).store "fresh9" = some p ∧
      p.chat_id = draftC8.chat_id ∧ p.text = draftC8.text ∧
      p.media_type = draftC8.media_type ∧
      p.media_file_id = draftC8.media_file_id ∧ p.buttons = draftC8.buttons ∧
      p.pin_post = draftC8.pin_post ∧ p.scheduled_for = draftC8.scheduled_for ∧
      p.start_date = draftC8.start_date ∧ p.interval = draftC8.interval ∧
      p.repetitions = draftC8.repetitions :=
  C8_commit_round_trip [1] (fun _ => none) 1 "fresh9" draftC8 [] (by decide) rfl
